import Mathlib

/-!
Shallow embedding of the supervision core of `redshift-gtk` (`statusicon.py`):
the per-stream line splitter (`child_data_cb`), the `Key: Value` protocol
decoder (`child_stdout_line_cb` / `child_key_change_cb`), the mirrored worker
state (`_status`, `_temperature`, `_period`, `_location`), the suspend-timer
scheduler (`suspend_cb` / `reenable_cb` / `remove_suspend_timer` /
`toggle_cb` over a small model of GLib timeout sources), and the process-exit
path (`child_cb`).  Text is modelled as `List Char`; the Python regular
expression `([\w ]+): (.+)` and `int(_, 10)` are modelled for ASCII input
(the worker runs under the C locale).
-/

deriving instance DecidableEq for Except

namespace Redshift

/-- Characters matched by the regex class `[\w ]` (ASCII model of `\w`
plus the space that the pattern adds). -/
def wordOrSpace (c : Char) : Bool :=
  c.isAlphanum || c == '_' || c == ' '

/-- Whitespace stripped by Python `int` around the digits. -/
def isPySpace (c : Char) : Bool :=
  c == ' ' || c == '\t' || c == '\n' || c == '\r' || c == '\x0b' || c == '\x0c'

/-- Strip `isPySpace` characters from both ends. -/
def stripWs (l : List Char) : List Char :=
  ((l.dropWhile isPySpace).reverse.dropWhile isPySpace).reverse

/-- `value.rstrip('K')`: remove every trailing `'K'`. -/
def rstripK (l : List Char) : List Char :=
  (l.reverse.dropWhile (fun c => c == 'K')).reverse

/-- Tail of the digit grammar of Python `int(_, 10)`: digits with single
underscores allowed only between digits. -/
def digitsTail : List Char → Bool
  | [] => true
  | '_' :: d :: cs => d.isDigit && digitsTail cs
  | c :: cs => c.isDigit && digitsTail cs

/-- Numeric value of a digit string (underscores already removed). -/
def digitsVal (l : List Char) : Nat :=
  l.foldl (fun acc c => acc * 10 + (c.toNat - ('0').toNat)) 0

/-- Python `int(s, 10)`: optional surrounding whitespace, optional sign,
then a nonempty digit string (single underscores allowed between digits);
anything else raises `ValueError`, modelled as `none`.  ASCII model. -/
def pyInt (l : List Char) : Option Int :=
  let s := stripWs l
  let signRest : Int × List Char :=
    match s with
    | '+' :: r => (1, r)
    | '-' :: r => (-1, r)
    | r => (1, r)
  match signRest.2 with
  | [] => none
  | c :: cs =>
    if c.isDigit && digitsTail cs then
      some (signRest.1 * (digitsVal ((c :: cs).filter (fun x => x != '_')) : Int))
    else
      none

/-- First occurrence of `sep` in a string: `some (before, after)` when found
(`sep` itself removed), `none` otherwise. -/
def findSep (sep : List Char) : List Char → Option (List Char × List Char)
  | [] => none
  | c :: cs =>
    if sep.isPrefixOf (c :: cs) then
      some ([], (c :: cs).drop sep.length)
    else
      match findSep sep cs with
      | none => none
      | some (b, a) => some (c :: b, a)

/-- Iterative splitting at each occurrence of `sep`; the fuel bounds the
number of splits (each split removes at least one character, so a fuel of
`s.length` is always enough). -/
def pySplitGo (sep : List Char) : Nat → List Char → List (List Char)
  | 0, s => [s]
  | Nat.succ fuel, s =>
    match findSep sep s with
    | none => [s]
    | some (b, a) => b :: pySplitGo sep fuel a

/-- Python `s.split(sep)` for a nonempty separator. -/
def pySplit (sep s : List Char) : List (List Char) :=
  pySplitGo sep s.length s

/-- `re.match(r'([\w ]+): (.+)', line)`: a nonempty run of word-or-space
characters (`:` is not one, so the run is the maximal such prefix), the
literal `": "`, then a nonempty remainder (`.` stops at a newline). -/
def parseKV (l : List Char) : Option (List Char × List Char) :=
  let k := l.takeWhile wordOrSpace
  match l.dropWhile wordOrSpace with
  | ':' :: ' ' :: rest =>
    let v := rest.takeWhile (fun c => c != '\n')
    if k.isEmpty || v.isEmpty then none else some (k, v)
  | _ => none

def statusKey : List Char := ("Status").data
def tempKey : List Char := ("Color temperature").data
def periodKey : List Char := ("Period").data
def locationKey : List Char := ("Location").data
def disabledVal : List Char := ("Disabled").data
def commaSpace : List Char := (", ").data
def unknownVal : List Char := ("Unknown").data

/-- The value stored in `self._location`: initialised to the float pair
`(0.0, 0.0)` and replaced by the list of strings `value.split(', ')` on a
`Location:` report (Python is dynamically typed, so the field holds either). -/
inductive PyLocation where
  | floatPair (lat lon : Rat)
  | strParts (parts : List (List Char))
deriving DecidableEq, Repr

/-- The mirrored worker state fields of `RedshiftStatusIcon`. -/
structure WorkerState where
  _status : Bool
  _temperature : Int
  _period : List Char
  _location : PyLocation
deriving DecidableEq, Repr

/-- Initial field values set in `__init__`. -/
def init_state : WorkerState :=
  { _status := false
    _temperature := 0
    _period := unknownVal
    _location := PyLocation.floatPair 0 0 }

/-- A state-change event: which `change_*` method the decoder invoked. -/
inductive Event where
  | status (b : Bool)
  | temperature (t : Int)
  | period (p : List Char)
  | location (parts : List (List Char))
deriving DecidableEq, Repr

def change_status (s : WorkerState) (b : Bool) : WorkerState :=
  { s with _status := b }

def change_temperature (s : WorkerState) (t : Int) : WorkerState :=
  { s with _temperature := t }

def change_period (s : WorkerState) (p : List Char) : WorkerState :=
  { s with _period := p }

def change_location (s : WorkerState) (parts : List (List Char)) : WorkerState :=
  { s with _location := PyLocation.strParts parts }

/-- `child_key_change_cb`: dispatch on the key.  `int(value.rstrip('K'), 10)`
may raise `ValueError`, modelled as `Except.error ()`; every other branch
cannot fail.  The returned `Option Event` records which `change_*` call was
made (`none`: no mutation). -/
def child_key_change_cb (s : WorkerState) (k v : List Char) :
    Except Unit (WorkerState × Option Event) :=
  if k = statusKey then
    Except.ok (change_status s (v != disabledVal), some (Event.status (v != disabledVal)))
  else if k = tempKey then
    match pyInt (rstripK v) with
    | some n => Except.ok (change_temperature s n, some (Event.temperature n))
    | none => Except.error ()
  else if k = periodKey then
    Except.ok (change_period s v, some (Event.period v))
  else if k = locationKey then
    Except.ok (change_location s (pySplit commaSpace v), some (Event.location (pySplit commaSpace v)))
  else
    Except.ok (s, none)

/-- `child_stdout_line_cb`: skip empty lines, match the regex, dispatch. -/
def child_stdout_line_cb (s : WorkerState) (l : List Char) :
    Except Unit (WorkerState × Option Event) :=
  if l.isEmpty then
    Except.ok (s, none)
  else
    match parseKV l with
    | some kv => child_key_change_cb s kv.1 kv.2
    | none => Except.ok (s, none)

/-- `buf.partition('\n')` of the source's splitting loop, with the
`sep == ''` test folded in: `(before, some after)` when a newline occurs,
`(buf, none)` otherwise. -/
def breakNl : List Char → List Char × Option (List Char)
  | [] => ([], none)
  | c :: cs =>
    if c = '\n' then
      ([], some cs)
    else
      let r := breakNl cs
      (c :: r.1, r.2)

theorem breakNl_some_length :
    ∀ (l f r : List Char), breakNl l = (f, some r) → r.length < l.length := by
  intro l
  induction l with
  | nil => intro f r h; simp [breakNl] at h
  | cons c cs ih =>
    intro f r h
    by_cases hc : c = '\n'
    · simp [breakNl, hc] at h
      obtain ⟨_, h2⟩ := h
      subst h2
      simp
    · simp [breakNl, hc] at h
      obtain ⟨_, h2⟩ := h
      cases hb2 : breakNl cs with
      | mk f2 o2 =>
        rw [hb2] at h2
        cases o2 with
        | none => simp at h2
        | some r2 =>
          simp at h2
          subst h2
          have hlt := ih f2 _ hb2
          simp only [List.length_cons]
          omega

/-- The `while True` loop of `child_data_cb`: repeatedly partition the
buffer at the first newline, collecting the completed lines and keeping
the remainder. -/
def child_data_loop (buf : List Char) : List (List Char) × List Char :=
  match hb : breakNl buf with
  | (_, none) => ([], buf)
  | (first, some last) =>
    let r := child_data_loop last
    (first :: r.1, r.2)
termination_by buf.length
decreasing_by exact breakNl_some_length _ _ _ hb

/-- `child_data_cb` for one read: append the chunk to the stream's buffer
and drain all complete lines. -/
def child_data_cb (buf chunk : List Char) : List (List Char) × List Char :=
  child_data_loop (buf ++ chunk)

/-- Prepend a character to the first complete line if there is one,
otherwise to the buffer. -/
def consFirst (c : Char) : List (List Char) × List Char → List (List Char) × List Char
  | ([], b) => ([], c :: b)
  | (l :: ls, b) => ((c :: l) :: ls, b)

/-- Structural version of the splitting loop: complete lines of a string and the
trailing segment after the last newline (proved equal to `child_data_loop`). -/
def splitNl : List Char → List (List Char) × List Char
  | [] => ([], [])
  | c :: cs =>
    if c = '\n' then
      ([] :: (splitNl cs).1, (splitNl cs).2)
    else
      consFirst c (splitNl cs)

/-- Re-serialise lines: each line followed by the newline that ended it. -/
def joinLines : List (List Char) → List Char
  | [] => []
  | l :: ls => l ++ '\n' :: joinLines ls

/-- Feed a sequence of chunks through `child_data_cb`, starting from a given
buffer: all lines yielded, in order, and the final buffer. -/
def feedChunks (buf : List Char) : List (List Char) → List (List Char) × List Char
  | [] => ([], buf)
  | c :: cs =>
    let r := child_data_cb buf c
    let r2 := feedChunks r.2 cs
    (r.1 ++ r2.1, r2.2)

/-- The stderr side of `child_data_cb`: every completed stderr line is
appended to `self.errors` as `line + '\n'`.  Returns the final buffer and
the accumulated error text. -/
def stderrFeed : List Char → List Char → List (List Char) → List Char × List Char
  | buf, errors, [] => (buf, errors)
  | buf, errors, c :: cs =>
    let r := child_data_cb buf c
    stderrFeed r.2 (errors ++ joinLines r.1) cs

/-- Outcome of `child_cb`: `Gtk.main_quit()` on a clean exit, or an error
dialog showing the accumulated stderr text followed by `sys.exit(-1)`. -/
inductive ExitOutcome where
  | quit
  | errorReport (text : List Char) (code : Int)
deriving DecidableEq, Repr

/-- `child_cb`: drain the remaining stderr bytes into `self.errors`, then
classify the exit status (`GLib.spawn_check_exit_status` succeeds exactly on
a normal zero exit). -/
def child_cb (errors remStderr : List Char) (status : Int) : ExitOutcome :=
  let errs := errors ++ remStderr
  if status = 0 then ExitOutcome.quit else ExitOutcome.errorReport errs (-1)

theorem splitNl_cons (c : Char) (cs : List Char) :
    splitNl (c :: cs) =
      if c = '\n' then ([] :: (splitNl cs).1, (splitNl cs).2)
      else consFirst c (splitNl cs) := rfl

theorem splitNl_no_nl (l : List Char) (h : '\n' ∉ l) : splitNl l = ([], l) := by
  induction l with
  | nil => rfl
  | cons c cs ih =>
    have hc : ¬ c = '\n' := fun hh => h (by simp [hh])
    have hcs : '\n' ∉ cs := fun hh => h (by simp [hh])
    simp [splitNl, hc, ih hcs, consFirst]

theorem splitNl_buf_no_nl (l : List Char) : '\n' ∉ (splitNl l).2 := by
  induction l with
  | nil => simp [splitNl]
  | cons c cs ih =>
    by_cases hc : c = '\n'
    · simpa [splitNl, hc] using ih
    · cases hsc : splitNl cs with
      | mk L B =>
        rw [hsc] at ih
        cases L with
        | nil =>
          simp [splitNl, hc, hsc, consFirst]
          refine ⟨fun hh => hc hh.symm, ?_⟩
          simpa using ih
        | cons l0 ls =>
          simpa [splitNl, hc, hsc, consFirst] using ih

theorem joinLines_splitNl (l : List Char) :
    joinLines (splitNl l).1 ++ (splitNl l).2 = l := by
  induction l with
  | nil => rfl
  | cons c cs ih =>
    by_cases hc : c = '\n'
    · subst hc
      simp only [splitNl, if_true, joinLines]
      simpa using ih
    · cases hsc : splitNl cs with
      | mk L B =>
        rw [hsc] at ih
        cases L with
        | nil =>
          simp only [joinLines, List.nil_append] at ih
          simp [splitNl, hc, hsc, consFirst, joinLines, ih]
        | cons l0 ls =>
          simp only [joinLines, List.append_assoc] at ih ⊢
          simp only [splitNl, hc, if_false, hsc, consFirst, joinLines]
          simpa [List.append_assoc] using ih

theorem splitNl_line (f r : List Char) (h : '\n' ∉ f) :
    splitNl (f ++ '\n' :: r) = (f :: (splitNl r).1, (splitNl r).2) := by
  induction f with
  | nil => simp [splitNl]
  | cons c cs ih =>
    have hc : ¬ c = '\n' := fun hh => h (by simp [hh])
    have hcs : '\n' ∉ cs := fun hh => h (by simp [hh])
    rw [List.cons_append, splitNl_cons, if_neg hc, ih hcs]
    simp [consFirst]

theorem breakNl_none_eq (l f : List Char) (h : breakNl l = (f, none)) :
    f = l ∧ '\n' ∉ l := by
  induction l generalizing f with
  | nil =>
    simp [breakNl] at h
    simp [h]
  | cons c cs ih =>
    by_cases hc : c = '\n'
    · simp [breakNl, hc] at h
    · cases hb2 : breakNl cs with
      | mk f2 o2 =>
        simp only [breakNl, hc, if_false, hb2] at h
        cases o2 with
        | some r2 => simp at h
        | none =>
          simp only [Prod.mk.injEq, and_true] at h
          obtain ⟨he, hn⟩ := ih f2 hb2
          subst he
          refine ⟨h.symm, ?_⟩
          intro hm
          rcases List.mem_cons.mp hm with hm | hm
          · exact hc hm.symm
          · exact hn hm

theorem breakNl_some_eq (l f r : List Char) (h : breakNl l = (f, some r)) :
    l = f ++ '\n' :: r ∧ '\n' ∉ f := by
  induction l generalizing f r with
  | nil => simp [breakNl] at h
  | cons c cs ih =>
    by_cases hc : c = '\n'
    · simp only [breakNl, hc, if_true, Prod.mk.injEq, Option.some.injEq] at h
      obtain ⟨h1, h2⟩ := h
      subst h2
      subst hc
      simp [← h1]
    · cases hb2 : breakNl cs with
      | mk f2 o2 =>
        simp only [breakNl, hc, if_false, hb2] at h
        cases o2 with
        | none => simp at h
        | some r2 =>
          simp only [Prod.mk.injEq, Option.some.injEq] at h
          obtain ⟨h1, h2⟩ := h
          subst h2
          obtain ⟨he, hnf⟩ := ih f2 _ hb2
          subst he
          refine ⟨?_, ?_⟩
          · simp [← h1]
          · rw [← h1]
            intro hm
            rcases List.mem_cons.mp hm with hm | hm
            · exact hc hm.symm
            · exact hnf hm

theorem child_data_loop_none (l f : List Char) (hb : breakNl l = (f, none)) :
    child_data_loop l = ([], l) := by
  rw [child_data_loop]
  split
  · rfl
  · rename_i first last heq
    rw [hb] at heq
    cases heq

theorem child_data_loop_some (l f r : List Char) (hb : breakNl l = (f, some r)) :
    child_data_loop l = (f :: (child_data_loop r).1, (child_data_loop r).2) := by
  rw [child_data_loop]
  split
  · rename_i f2 heq
    rw [hb] at heq
    cases heq
  · rename_i first last heq
    rw [hb] at heq
    cases heq
    rfl

theorem child_data_loop_eq (l : List Char) : child_data_loop l = splitNl l := by
  have H : ∀ (n : Nat) (l : List Char), l.length ≤ n → child_data_loop l = splitNl l := by
    intro n
    induction n with
    | zero =>
      intro l hl
      have hnil : l = [] := List.length_eq_zero.mp (Nat.le_zero.mp hl)
      subst hnil
      rw [child_data_loop_none [] [] rfl]
      rfl
    | succ n ih =>
      intro l hl
      cases hb : breakNl l with
      | mk f o =>
        cases o with
        | none =>
          obtain ⟨-, hnl⟩ := breakNl_none_eq l f hb
          rw [child_data_loop_none l f hb, splitNl_no_nl l hnl]
        | some r =>
          obtain ⟨he, hnf⟩ := breakNl_some_eq l f r hb
          have hlt := breakNl_some_length l f r hb
          have ihr := ih r (by omega)
          rw [child_data_loop_some l f r hb, ihr, he, splitNl_line f r hnf]
  exact H l.length l le_rfl

theorem splitNl_append (a b : List Char) :
    splitNl (a ++ b) =
      ((splitNl a).1 ++ (splitNl ((splitNl a).2 ++ b)).1,
       (splitNl ((splitNl a).2 ++ b)).2) := by
  induction a with
  | nil => simp [splitNl]
  | cons c cs ih =>
    cases hsc : splitNl cs with
    | mk L1 B1 =>
      rw [hsc] at ih
      by_cases hc : c = '\n'
      · subst hc
        rw [List.cons_append, splitNl_cons, if_pos rfl, ih, splitNl_cons, if_pos rfl, hsc]
        simp
      · rw [List.cons_append, splitNl_cons, if_neg hc, ih, splitNl_cons, if_neg hc, hsc]
        cases L1 with
        | nil =>
          simp only [consFirst, List.nil_append]
          rw [List.cons_append, splitNl_cons, if_neg hc]
          cases hX : splitNl (B1 ++ b) with
          | mk L2 B2 =>
            cases L2 with
            | nil => simp [consFirst]
            | cons l2 ls2 => simp [consFirst]
        | cons l1 ls1 =>
          simp [consFirst]

theorem feedChunks_eq (cs : List (List Char)) :
    ∀ (buf : List Char), '\n' ∉ buf →
      feedChunks buf cs = splitNl (buf ++ cs.flatten) := by
  induction cs with
  | nil =>
    intro buf h
    simp [feedChunks, splitNl_no_nl buf h]
  | cons c cs ih =>
    intro buf h
    have hb : '\n' ∉ (splitNl (buf ++ c)).2 := splitNl_buf_no_nl _
    simp only [feedChunks, child_data_cb, child_data_loop_eq]
    rw [ih _ hb]
    rw [List.flatten_cons, ← List.append_assoc, splitNl_append (buf ++ c) cs.flatten]

theorem joinLines_append (a b : List (List Char)) :
    joinLines (a ++ b) = joinLines a ++ joinLines b := by
  induction a with
  | nil => simp [joinLines]
  | cons l ls ih => simp [joinLines, ih]

theorem stderrFeed_spec (cs : List (List Char)) :
    ∀ (buf errors : List Char),
      stderrFeed buf errors cs =
        ((feedChunks buf cs).2, errors ++ joinLines (feedChunks buf cs).1) := by
  induction cs with
  | nil => intro buf errors; simp [stderrFeed, feedChunks, joinLines]
  | cons c cs ih =>
    intro buf errors
    simp only [stderrFeed, feedChunks, ih, joinLines_append, List.append_assoc]

/-- The model of GLib's timeout-source table: a fresh-id counter and the
live sources with their deadlines (in seconds of absolute time). -/
structure GlibState where
  nextId : Nat
  pending : List (Nat × Nat)
deriving DecidableEq, Repr

/-- `GLib.timeout_add_seconds`: register a fresh source, return its id. -/
def timeout_add_seconds (g : GlibState) (now secs : Nat) : Nat × GlibState :=
  (g.nextId, { nextId := g.nextId + 1, pending := g.pending ++ [(g.nextId, now + secs)] })

/-- `GLib.source_remove`: drop the source with the given id. -/
def source_remove (g : GlibState) (id : Nat) : GlibState :=
  { g with pending := g.pending.filter (fun p => p.1 != id) }

/-- The scheduler-relevant fields of `RedshiftStatusIcon`: the mirrored
worker state, `self.suspend_timer`, the GLib source table, and the number
of SIGUSR1 control signals sent to the child so far. -/
structure App where
  st : WorkerState
  suspend_timer : Option Nat
  glib : GlibState
  signalsSent : Nat
deriving DecidableEq, Repr

/-- The state right after `__init__`: no suspend timer, no sources. -/
def app_init : App :=
  { st := init_state
    suspend_timer := none
    glib := { nextId := 0, pending := [] }
    signalsSent := 0 }

/-- `self.is_enabled()`. -/
def is_enabled (a : App) : Bool := a.st._status

/-- `self.child_toggle_status()`: `os.kill(pid, SIGUSR1)`. -/
def child_toggle_status (a : App) : App :=
  { a with signalsSent := a.signalsSent + 1 }

/-- `self.remove_suspend_timer()`. -/
def remove_suspend_timer (a : App) : App :=
  match a.suspend_timer with
  | none => a
  | some id => { a with glib := source_remove a.glib id, suspend_timer := none }

/-- `self.suspend_cb(item, minutes)` at absolute time `now`. -/
def suspend_cb (a : App) (now minutes : Nat) : App :=
  let a1 := if is_enabled a then child_toggle_status a else a
  let a2 := remove_suspend_timer a1
  let r := timeout_add_seconds a2.glib now (minutes * 60)
  { a2 with glib := r.2, suspend_timer := some r.1 }

/-- `self.reenable_cb()`. -/
def reenable_cb (a : App) : App :=
  if is_enabled a then a else child_toggle_status a

/-- GLib dispatching timeout source `id`: the callback `reenable_cb` runs
and returns `None`, which is falsy, so GLib destroys the source afterwards.
Note that `self.suspend_timer` is not touched. -/
def fire_timer (a : App) (id : Nat) : App :=
  let a1 := reenable_cb a
  { a1 with glib := source_remove a1.glib id }

/-- `self.toggle_cb(widget)`. -/
def toggle_cb (a : App) : App :=
  child_toggle_status (remove_suspend_timer a)

/-- Override the mirrored enabled flag (used to state claims about "while
enabled" / "while disabled" without a propositional hypothesis). -/
def setEnabled (a : App) (b : Bool) : App :=
  { a with st := { a.st with _status := b } }

/-- The scheduler invariant the spec states: `self.suspend_timer` is `none`
with no live timeout source, or `some id` with exactly the source `id` live. -/
def timerInvB (a : App) : Bool :=
  match a.suspend_timer, a.glib.pending with
  | none, [] => true
  | some id, [p] => p.1 == id
  | _, _ => false

theorem takeWhile_append_stop (p : Char → Bool) (k : List Char) (c : Char) (rest : List Char)
    (hk : ∀ x ∈ k, p x = true) (hc : p c = false) :
    (k ++ c :: rest).takeWhile p = k := by
  induction k with
  | nil => simp [List.takeWhile_cons, hc]
  | cons a as ih =>
    have ha : p a = true := hk a (by simp)
    simp only [List.cons_append, List.takeWhile_cons, ha, if_true]
    rw [ih (fun x hx => hk x (by simp [hx]))]

theorem dropWhile_append_stop (p : Char → Bool) (k : List Char) (c : Char) (rest : List Char)
    (hk : ∀ x ∈ k, p x = true) (hc : p c = false) :
    (k ++ c :: rest).dropWhile p = c :: rest := by
  induction k with
  | nil => simp [List.dropWhile_cons, hc]
  | cons a as ih =>
    have ha : p a = true := hk a (by simp)
    simp only [List.cons_append, List.dropWhile_cons, ha, if_true]
    exact ih (fun x hx => hk x (by simp [hx]))

theorem takeWhile_all (p : Char → Bool) (l : List Char) (h : ∀ x ∈ l, p x = true) :
    l.takeWhile p = l := by
  induction l with
  | nil => rfl
  | cons a as ih =>
    have ha : p a = true := h a (by simp)
    simp only [List.takeWhile_cons, ha, if_true]
    rw [ih (fun x hx => h x (by simp [hx]))]

/-- The regex matches exactly the lines `key ++ ": " ++ value` with a
nonempty word-or-space key and a nonempty newline-free value. -/
theorem parseKV_mk (k v : List Char) (hk0 : k ≠ [])
    (hkw : ∀ x ∈ k, wordOrSpace x = true) (hv0 : v ≠ []) (hvn : '\n' ∉ v) :
    parseKV (k ++ ':' :: ' ' :: v) = some (k, v) := by
  have hcolon : wordOrSpace ':' = false := rfl
  have hvt : v.takeWhile (fun c => c != '\n') = v := by
    refine takeWhile_all _ v (fun x hx => ?_)
    have : ¬ x = '\n' := fun hh => hvn (hh ▸ hx)
    simpa using this
  have hk1 : k.isEmpty = false := by cases k with
    | nil => exact absurd rfl hk0
    | cons a as => rfl
  have hv1 : v.isEmpty = false := by cases v with
    | nil => exact absurd rfl hv0
    | cons a as => rfl
  unfold parseKV
  rw [takeWhile_append_stop _ _ _ _ hkw hcolon, dropWhile_append_stop _ _ _ _ hkw hcolon]
  simp [hvt, hk1, hv1]

def statusDisabledLine : List Char := ("Status: Disabled").data
def statusEnabledLine : List Char := ("Status: Enabled").data
def tempLine : List Char := ("Color temperature: 4500K").data
def tempWarmLine : List Char := ("Color temperature: warm").data
def periodNightLine : List Char := ("Period: Night").data
def nightVal : List Char := ("Night").data
def enabledVal : List Char := ("Enabled").data
def locExampleLine : List Char := ("Location: 51.50, -0.12").data
def locThreeLine : List Char := ("Location: 1, 2, 3").data
def latStr : List Char := ("51.50").data
def lonStr : List Char := ("-0.12").data
def garbageLine : List Char := ("garbage line without colon").data
def fatalMsg : List Char := ("fatal error\n").data

/-- Whether a line matches the regex with key `Status`. -/
def isStatusLine (l : List Char) : Bool :=
  match parseKV l with
  | some kv => kv.1 == statusKey
  | none => false

/-- The `_status` field after processing a stdout line (an uncaught
`ValueError` leaves the object's fields as they were). -/
def statusAfter (s : WorkerState) (l : List Char) : Bool :=
  match child_stdout_line_cb s l with
  | Except.ok r => r.1._status
  | Except.error _ => s._status

theorem timeout_add_eq (g : GlibState) (now secs : Nat) :
    timeout_add_seconds g now secs =
      (g.nextId, ⟨g.nextId + 1, g.pending ++ [(g.nextId, now + secs)]⟩) := rfl

theorem remove_suspend_timer_fields (a : App) :
    (remove_suspend_timer a).st = a.st ∧
    (remove_suspend_timer a).signalsSent = a.signalsSent ∧
    (remove_suspend_timer a).glib.nextId = a.glib.nextId ∧
    (remove_suspend_timer a).suspend_timer = none := by
  cases h : a.suspend_timer <;> simp [remove_suspend_timer, h, source_remove]

theorem remove_suspend_timer_pending (a : App) (h : timerInvB a = true) :
    (remove_suspend_timer a).glib.pending = [] := by
  unfold timerInvB at h
  cases hst : a.suspend_timer with
  | none =>
    cases hp : a.glib.pending with
    | nil => simp [remove_suspend_timer, hst, hp]
    | cons p l => rw [hst, hp] at h; simp at h
  | some id =>
    cases hp : a.glib.pending with
    | nil => rw [hst, hp] at h; simp at h
    | cons p l =>
      cases l with
      | nil =>
        rw [hst, hp] at h
        simp only [List.cons.injEq] at h
        have hid : p.1 = id := by simpa using h
        simp [remove_suspend_timer, hst, source_remove, hp, List.filter, hid]
      | cons q m => rw [hst, hp] at h; simp at h

theorem toggle_invB (a : App) : timerInvB (child_toggle_status a) = timerInvB a := rfl

theorem child_toggle_fields (a : App) :
    (child_toggle_status a).st = a.st ∧
    (child_toggle_status a).suspend_timer = a.suspend_timer ∧
    (child_toggle_status a).glib = a.glib ∧
    (child_toggle_status a).signalsSent = a.signalsSent + 1 := by
  simp [child_toggle_status]

theorem suspend_cb_spec (a : App) (now m : Nat) (h : timerInvB a = true) :
    (suspend_cb a now m).st = a.st ∧
    (suspend_cb a now m).suspend_timer = some a.glib.nextId ∧
    (suspend_cb a now m).glib.nextId = a.glib.nextId + 1 ∧
    (suspend_cb a now m).glib.pending = [(a.glib.nextId, now + m * 60)] ∧
    (suspend_cb a now m).signalsSent =
      (if is_enabled a then a.signalsSent + 1 else a.signalsSent) ∧
    timerInvB (suspend_cb a now m) = true := by
  cases he : is_enabled a with
  | false =>
    have hp : (remove_suspend_timer a).glib.pending = [] :=
      remove_suspend_timer_pending a h
    obtain ⟨h1, h2, h3, h4⟩ := remove_suspend_timer_fields a
    simp [suspend_cb, he, timeout_add_eq, hp, h1, h2, h3, h4, timerInvB]
  | true =>
    have htog : timerInvB (child_toggle_status a) = true := h
    have hp : (remove_suspend_timer (child_toggle_status a)).glib.pending = [] :=
      remove_suspend_timer_pending (child_toggle_status a) htog
    obtain ⟨h1, h2, h3, h4⟩ := remove_suspend_timer_fields (child_toggle_status a)
    obtain ⟨t1, t2, t3, t4⟩ := child_toggle_fields a
    simp [suspend_cb, he, timeout_add_eq, hp, h1, h2, h3, h4, t1, t2, t3, t4,
      timerInvB]

theorem status_preserved (s : WorkerState) (l : List Char)
    (h : isStatusLine l = false) : statusAfter s l = s._status := by
  unfold statusAfter child_stdout_line_cb
  cases hie : l.isEmpty with
  | true => simp [hie]
  | false =>
    simp only [hie, Bool.false_eq_true, if_false]
    cases hp : parseKV l with
    | none => simp
    | some kv =>
      unfold isStatusLine at h
      rw [hp] at h
      have hne : ¬ kv.1 = statusKey := by simpa using h
      simp only []
      unfold child_key_change_cb
      rw [if_neg hne]
      by_cases h2 : kv.1 = tempKey
      · rw [if_pos h2]
        cases hpi : pyInt (rstripK kv.2) with
        | none => rfl
        | some n => rfl
      · rw [if_neg h2]
        by_cases h3 : kv.1 = periodKey
        · rw [if_pos h3]; rfl
        · rw [if_neg h3]
          by_cases h4 : kv.1 = locationKey
          · rw [if_pos h4]; rfl
          · rw [if_neg h4]

theorem toggle_cb_fields (a : App) :
    (toggle_cb a).st = a.st ∧
    (toggle_cb a).suspend_timer = none ∧
    (toggle_cb a).signalsSent = a.signalsSent + 1 ∧
    (toggle_cb a).glib.pending = (remove_suspend_timer a).glib.pending := by
  obtain ⟨r1, r2, r3, r4⟩ := remove_suspend_timer_fields a
  refine ⟨?_, ?_, ?_, ?_⟩
  · simp [toggle_cb, child_toggle_status, r1]
  · simp [toggle_cb, child_toggle_status, r4]
  · simp [toggle_cb, child_toggle_status, r2]
  · simp [toggle_cb, child_toggle_status]

/-- Claim C1: feeding the chunks of any partition of a character sequence
one `child_data_cb` call at a time yields exactly the same lines, in the
same order, and the same final buffer as feeding the entire sequence in a
single call; the final buffer is the trailing segment not terminated by a
newline (it contains no newline, and re-serialising the yielded lines and
appending the buffer reconstructs the whole input). -/
theorem C1_chunk_independence (cs : List (List Char)) :
    feedChunks [] cs = child_data_cb [] cs.flatten ∧
    '\n' ∉ (feedChunks [] cs).2 ∧
    joinLines (feedChunks [] cs).1 ++ (feedChunks [] cs).2 = cs.flatten := by
  have hfc : feedChunks [] cs = splitNl cs.flatten := by
    simpa using feedChunks_eq cs [] (by simp)
  have hcd : child_data_cb [] cs.flatten = splitNl cs.flatten := by
    unfold child_data_cb
    rw [List.nil_append, child_data_loop_eq]
  refine ⟨by rw [hfc, hcd], ?_, ?_⟩
  · rw [hfc]; exact splitNl_buf_no_nl _
  · rw [hfc]; exact joinLines_splitNl _

/-- Claim C2: decoding `Status: Disabled` records enabled = false; decoding
`Status: Enabled` — and more generally a `Status:` line with any value other
than `Disabled` — records enabled = true; decoding
`Color temperature: 4500K` records the integer 4500 (trailing `K` stripped,
base-10 parse); decoding `Period: Night` records the period `Night`. -/
theorem C2_decode_examples (s : WorkerState) (v : List Char) :
    child_stdout_line_cb s statusDisabledLine =
      Except.ok (change_status s false, some (Event.status false)) ∧
    child_stdout_line_cb s statusEnabledLine =
      Except.ok (change_status s true, some (Event.status true)) ∧
    (v ≠ [] → '\n' ∉ v → v ≠ disabledVal →
      child_stdout_line_cb s (statusKey ++ ':' :: ' ' :: v) =
        Except.ok (change_status s true, some (Event.status true))) ∧
    child_stdout_line_cb s tempLine =
      Except.ok (change_temperature s 4500, some (Event.temperature 4500)) ∧
    child_stdout_line_cb s periodNightLine =
      Except.ok (change_period s nightVal, some (Event.period nightVal)) := by
  refine ⟨rfl, rfl, ?_, rfl, rfl⟩
  intro hv0 hvn hvd
  have hp := parseKV_mk statusKey v (by decide) (by decide) hv0 hvn
  have hie : (statusKey ++ ':' :: ' ' :: v).isEmpty = false := rfl
  have hb : (v != disabledVal) = true := by simpa using hvd
  unfold child_stdout_line_cb
  simp only [hie, Bool.false_eq_true, if_false, hp]
  unfold child_key_change_cb
  rw [if_pos rfl, hb]

/-- Claim C2 witness: the general `Status:` clause applied at the concrete
value `Enabled` from the initial state. -/
theorem C2_decode_examples_witness :
    child_stdout_line_cb init_state (statusKey ++ ':' :: ' ' :: enabledVal) =
      Except.ok (change_status init_state true, some (Event.status true)) :=
  (C2_decode_examples init_state enabledVal).2.2.1 (by decide) (by decide) (by decide)

/-- Claim C3 counterexample: the decoder does not split a `Location:` value
into exactly two components — on `Location: 1, 2, 3` it stores three string
components, not a two-element (latitude, longitude) pair. -/
theorem C3_counterexample :
    child_stdout_line_cb init_state locThreeLine =
      Except.ok
        (change_location init_state [("1").data, ("2").data, ("3").data],
         some (Event.location [("1").data, ("2").data, ("3").data])) ∧
    [("1").data, ("2").data, ("3").data].length ≠ 2 :=
  ⟨rfl, by decide⟩

/-- Claim C3 (amended): decoding `Location: <v>` splits the value at each
`", "` and stores the resulting components as unparsed strings (one or more
of them, not necessarily two, and never converted to numbers); in
particular `Location: 51.50, -0.12` stores the string pair
`("51.50", "-0.12")`. -/
theorem C3_location_strings (s : WorkerState) (v : List Char) :
    (v ≠ [] → '\n' ∉ v →
      child_stdout_line_cb s (locationKey ++ ':' :: ' ' :: v) =
        Except.ok (change_location s (pySplit commaSpace v),
          some (Event.location (pySplit commaSpace v)))) ∧
    child_stdout_line_cb s locExampleLine =
      Except.ok (change_location s [latStr, lonStr],
        some (Event.location [latStr, lonStr])) := by
  refine ⟨?_, rfl⟩
  intro hv0 hvn
  have hp := parseKV_mk locationKey v (by decide) (by decide) hv0 hvn
  have hie : (locationKey ++ ':' :: ' ' :: v).isEmpty = false := rfl
  unfold child_stdout_line_cb
  simp only [hie, Bool.false_eq_true, if_false, hp]
  unfold child_key_change_cb
  rw [if_neg (by decide), if_neg (by decide), if_neg (by decide), if_pos rfl]

/-- Claim C3 witness: the general `Location:` clause applied at the claim's
example value. -/
theorem C3_location_strings_witness :
    child_stdout_line_cb init_state
        (locationKey ++ ':' :: ' ' :: ("51.50, -0.12").data) =
      Except.ok
        (change_location init_state (pySplit commaSpace (("51.50, -0.12").data)),
         some (Event.location (pySplit commaSpace (("51.50, -0.12").data)))) :=
  (C3_location_strings init_state (("51.50, -0.12").data)).1 (by decide) (by decide)

/-- Claim C4: a stdout line that does not match the regex (no colon-space,
empty key, empty value, or the empty line) produces no event and leaves the
worker state completely unchanged. -/
theorem C4_nonmatching_noop (s : WorkerState) (l : List Char)
    (h : parseKV l = none) : child_stdout_line_cb s l = Except.ok (s, none) := by
  unfold child_stdout_line_cb
  cases hie : l.isEmpty <;> simp [hie, h]

/-- Claim C4 witness: the claim applied at the spec's example line. -/
theorem C4_nonmatching_noop_witness :
    child_stdout_line_cb init_state garbageLine = Except.ok (init_state, none) :=
  C4_nonmatching_noop init_state garbageLine (by decide)

/-- Claim C5: starting from any state satisfying the one-pending-timer
invariant, two successive suspend requests leave exactly one pending
timeout source — the second one, due `m2 * 60` seconds after the second
call — and the first request's source id is no longer pending, so the first
timer can never fire; the invariant is preserved.  (The claim's instance is
`m1 = 30`, `m2 = 60`, deadline 3600 seconds after the second call.) -/
theorem C5_suspend_replaces (a : App) (now1 now2 m1 m2 : Nat)
    (h : timerInvB a = true) :
    timerInvB (suspend_cb a now1 m1) = true ∧
    (suspend_cb a now1 m1).suspend_timer = some a.glib.nextId ∧
    (suspend_cb (suspend_cb a now1 m1) now2 m2).glib.pending =
      [(a.glib.nextId + 1, now2 + m2 * 60)] ∧
    (suspend_cb (suspend_cb a now1 m1) now2 m2).suspend_timer =
      some (a.glib.nextId + 1) ∧
    ((suspend_cb (suspend_cb a now1 m1) now2 m2).glib.pending.all
      (fun p => p.1 != a.glib.nextId)) = true := by
  obtain ⟨s1, s2, s3, s4, s5, s6⟩ := suspend_cb_spec a now1 m1 h
  obtain ⟨u1, u2, u3, u4, u5, u6⟩ := suspend_cb_spec (suspend_cb a now1 m1) now2 m2 s6
  refine ⟨s6, s2, ?_, ?_, ?_⟩
  · rw [u4, s3]
  · rw [u2, s3]
  · rw [u4, s3]
    simp

/-- Claim C5 witness: `suspendFor(30)` then `suspendFor(60)` from the
freshly initialised application state. -/
theorem C5_suspend_replaces_witness :
    timerInvB (suspend_cb app_init 0 30) = true ∧
    (suspend_cb (suspend_cb app_init 0 30) 100 60).glib.pending =
      [(1, 100 + 60 * 60)] ∧
    (suspend_cb (suspend_cb app_init 0 30) 100 60).suspend_timer = some 1 := by
  have h := C5_suspend_replaces app_init 0 100 30 60 rfl
  exact ⟨h.1, by simpa using h.2.2.1, by simpa using h.2.2.2.1⟩

/-- Claim C6: a suspend request while the worker is disabled sends no
control signal but still registers a timeout of `m * 60` seconds tracked by
`suspend_timer`; when a suspend timer fires while the worker is enabled,
nothing is sent and nothing changes apart from GLib discarding the fired
source; firing while disabled sends exactly one toggle signal. -/
theorem C6_suspend_while_disabled (a : App) (now m id : Nat) :
    (suspend_cb (setEnabled a false) now m).signalsSent = a.signalsSent ∧
    (suspend_cb (setEnabled a false) now m).suspend_timer = some a.glib.nextId ∧
    (a.glib.nextId, now + m * 60) ∈
      (suspend_cb (setEnabled a false) now m).glib.pending ∧
    fire_timer (setEnabled a true) id =
      { setEnabled a true with glib := source_remove a.glib id } ∧
    (fire_timer (setEnabled a false) id).signalsSent = a.signalsSent + 1 := by
  obtain ⟨r1, r2, r3, r4⟩ := remove_suspend_timer_fields (setEnabled a false)
  have r2a : (remove_suspend_timer (setEnabled a false)).signalsSent =
      a.signalsSent := r2.trans rfl
  have r3a : (remove_suspend_timer (setEnabled a false)).glib.nextId =
      a.glib.nextId := r3.trans rfl
  have hse : is_enabled (setEnabled a false) = false := rfl
  refine ⟨?_, ?_, ?_, rfl, rfl⟩
  · simp only [suspend_cb, hse, Bool.false_eq_true, if_false, timeout_add_eq]
    simpa using r2a
  · simp only [suspend_cb, hse, Bool.false_eq_true, if_false, timeout_add_eq]
    simp [r3a]
  · simp only [suspend_cb, hse, Bool.false_eq_true, if_false, timeout_add_eq]
    simp [r3a]

/-- Claim C7 (evaluation at the failing input): arm a suspend timer from the
initial state and let it fire — GLib has discarded the source (nothing is
pending any more), yet `suspend_timer` still records the stale id 0, which
is not what `remove_suspend_timer` leaves behind (`none`). -/
theorem C7_stale_reference :
    (fire_timer (suspend_cb app_init 0 30) 0).suspend_timer = some 0 ∧
    (fire_timer (suspend_cb app_init 0 30) 0).glib.pending = [] ∧
    (remove_suspend_timer (fire_timer (suspend_cb app_init 0 30) 0)).suspend_timer
      = none :=
  ⟨rfl, rfl, rfl⟩

/-- Claim C8: `toggle_cb` cancels any pending suspend timer and sends the
control signal without mutating the mirrored worker state: two successive
calls send exactly two signals and leave every field of the worker state
unchanged; and the enabled flag only changes on a decoded `Status:` line —
any stdout line whose key is not `Status` preserves `_status`. -/
theorem C8_toggle_frame (a : App) (s : WorkerState) (l : List Char) :
    (toggle_cb a).st = a.st ∧
    (toggle_cb (toggle_cb a)).st = a.st ∧
    (toggle_cb (toggle_cb a)).signalsSent = a.signalsSent + 2 ∧
    (toggle_cb a).suspend_timer = none ∧
    (timerInvB a = true → (toggle_cb a).glib.pending = []) ∧
    (isStatusLine l = false → statusAfter s l = s._status) := by
  obtain ⟨f1, f2, f3, f4⟩ := toggle_cb_fields a
  obtain ⟨g1, g2, g3, g4⟩ := toggle_cb_fields (toggle_cb a)
  refine ⟨f1, by rw [g1, f1], by rw [g3, f3], f2, ?_, status_preserved s l⟩
  intro hinv
  rw [f4, remove_suspend_timer_pending a hinv]

/-- Claim C8 witness: both hypothetical clauses applied at concrete inputs
(the initial application state, and the non-`Status` line `Period: Night`). -/
theorem C8_toggle_frame_witness :
    (toggle_cb app_init).st = app_init.st ∧
    (toggle_cb app_init).glib.pending = [] ∧
    statusAfter init_state periodNightLine = init_state._status := by
  have h := C8_toggle_frame app_init init_state periodNightLine
  exact ⟨h.1, h.2.2.2.2.1 rfl, h.2.2.2.2.2 (by decide)⟩

/-- Claim C9: at worker exit — with the stderr content `fatal error\n`
reaching the supervisor as any sequence of chunks through the stderr data
callback (leaving no partial line buffered) plus a remainder drained by
`child_cb` — exit status 1 produces a failure report whose accumulated
stderr text is exactly `fatal error\n` together with the nonzero process
exit code -1, while exit status 0 produces the orderly `quit` outcome with
no error surfaced, whatever was accumulated. -/
theorem C9_exit_classification (cs : List (List Char)) (rem : List Char)
    (hall : cs.flatten ++ rem = fatalMsg)
    (hbuf : (stderrFeed [] [] cs).1 = []) :
    child_cb (stderrFeed [] [] cs).2 rem 1 =
      ExitOutcome.errorReport fatalMsg (-1) ∧
    (∀ (e r : List Char), child_cb e r 0 = ExitOutcome.quit) := by
  have hcb : ∀ (e r : List Char) (st : Int),
      child_cb e r st =
        if st = 0 then ExitOutcome.quit
        else ExitOutcome.errorReport (e ++ r) (-1) := fun e r st => rfl
  constructor
  · have hs := stderrFeed_spec cs [] []
    have hfc : feedChunks [] cs = splitNl cs.flatten := by
      simpa using feedChunks_eq cs [] (by simp)
    have hbuf2 : (splitNl cs.flatten).2 = [] := by
      rw [hs, hfc] at hbuf
      simpa using hbuf
    have herr : (stderrFeed [] [] cs).2 = joinLines (splitNl cs.flatten).1 := by
      rw [hs, hfc]
      simp
    have hj := joinLines_splitNl cs.flatten
    rw [hbuf2, List.append_nil] at hj
    rw [herr, hcb, if_neg (by decide), hj, hall]
  · intro e r
    rw [hcb, if_pos rfl]

/-- Claim C9 witness: the whole stderr text drained at exit, status 1; and a
clean zero exit. -/
theorem C9_exit_classification_witness :
    child_cb (stderrFeed [] [] []).2 fatalMsg 1 =
      ExitOutcome.errorReport fatalMsg (-1) ∧
    child_cb [] [] 0 = ExitOutcome.quit := by
  have h := C9_exit_classification [] fatalMsg rfl rfl
  exact ⟨h.1, h.2 [] []⟩

/-- Claim C10: a line matching the regex with key `Color temperature` whose
value, after stripping trailing `K`s, is not a valid base-10 integer makes
the decoder raise (`ValueError` from `int`), which nothing catches — while
a non-matching line or an unrecognized key is silently ignored. -/
theorem C10_temperature_raises (s : WorkerState) (v : List Char) :
    (v ≠ [] → '\n' ∉ v → pyInt (rstripK v) = none →
      child_stdout_line_cb s (tempKey ++ ':' :: ' ' :: v) = Except.error ()) ∧
    child_stdout_line_cb s tempWarmLine = Except.error () ∧
    child_stdout_line_cb s garbageLine = Except.ok (s, none) ∧
    child_stdout_line_cb s (("Brightness: 0.5").data) = Except.ok (s, none) := by
  refine ⟨?_, rfl, rfl, rfl⟩
  intro hv0 hvn hpi
  have hp := parseKV_mk tempKey v (by decide) (by decide) hv0 hvn
  have hie : (tempKey ++ ':' :: ' ' :: v).isEmpty = false := rfl
  unfold child_stdout_line_cb
  simp only [hie, Bool.false_eq_true, if_false, hp]
  unfold child_key_change_cb
  rw [if_neg (by decide), if_pos rfl, hpi]

/-- Claim C10 witness: the general clause applied at the value `warm`. -/
theorem C10_temperature_raises_witness :
    child_stdout_line_cb init_state (tempKey ++ ':' :: ' ' :: ("warm").data) =
      Except.error () :=
  (C10_temperature_raises init_state (("warm").data)).1 (by decide) (by decide)
    (by decide)

end Redshift
